import Mathlib

/-!
Shallow embedding of the straw terminal screen-buffer library
(single header, `straw.hpp`) and verification of its specification.

Modelling conventions:
* The C++ code is templated over an integral `chartype`; we instantiate
  glyphs as `Nat` (code units).  `unsigned` quantities (coordinates,
  dimensions) are modelled as `Nat`; no operation in the verified scope
  wraps around 2^32, so plain `Nat` arithmetic is faithful there.
* `std::vector<cell>` becomes `List cell`; `m_front`/`m_back` keep their
  roles.  A `std::span` row view becomes a `(drop, take)` slice.
* Functions that write escape sequences to `std::cout` are modelled as
  pure functions returning the emitted data: byte lists for the low-level
  adapter (`ANSI_COLOR_FG`, `ANSI_COLOR_BG`), and a list of `emit` events
  for `redraw`/`flush` (one event per escape sequence or glyph written).
* `assert(...)` in the source is modelled by an `Option` result:
  `none` means the assertion trapped.
-/

namespace Straw

/-- RGB color, three 8-bit channels (`struct color`). -/
structure color where
  r : Nat
  g : Nat
  b : Nat
  deriving DecidableEq, Repr

/-- Cell attributes (`struct attribs`): background, foreground, bold, underline.
Defaults: black background, white foreground, flags unset. -/
structure attribs where
  bg : color := ⟨0, 0, 0⟩
  fg : color := ⟨255, 255, 255⟩
  bold : Bool := false
  underline : Bool := false
  deriving DecidableEq, Repr

/-- Glyphs: the integral `chartype` template parameter, instantiated as `Nat`. -/
abbrev Glyph := Nat

/-- The newline glyph, the code unit of the C++ literal `'\n'`. -/
def newlineGlyph : Glyph := 10

/-- A grid cell (`struct cell`): glyph plus attributes. -/
structure cell where
  chr : Glyph := 0
  attr : attribs := {}
  deriving DecidableEq, Repr

instance : Inhabited cell := ⟨{}⟩

/-- One unit of terminal output: an escape sequence or a glyph write,
as produced by `ANSI_MOVE`, `ANSI_COLOR_FG`, `ANSI_COLOR_BG`, or
streaming a glyph. -/
inductive emit where
  | move (x y : Nat)
  | colorFg (c : color)
  | colorBg (c : color)
  | glyph (g : Glyph)
  deriving DecidableEq, Repr

/-- Byte form of the string `ANSI_ESCAPE` = ESC `[`. -/
def ANSI_ESCAPE_bytes : List Nat := [27, 91]

/-- Bytes written by `ANSI_COLOR_FG(c)`: ESC `[` `38;2;` then each channel.
In the source, `ss << c.r` inserts a `std::uint8_t` through the
`unsigned char` stream overload, so each channel contributes its raw byte
value — a single character — not a decimal numeral. -/
def ANSI_COLOR_FG_bytes (c : color) : List Nat :=
  ANSI_ESCAPE_bytes ++ [51, 56, 59, 50, 59] ++ [c.r, 59, c.g, 59, c.b, 109]

/-- Bytes written by `ANSI_COLOR_BG(c)`: the source body is identical to
`ANSI_COLOR_FG`, emitting the foreground-select code `38;2;`. -/
def ANSI_COLOR_BG_bytes (c : color) : List Nat :=
  ANSI_ESCAPE_bytes ++ [51, 56, 59, 50, 59] ++ [c.r, 59, c.g, 59, c.b, 109]

/-- ASCII bytes of the decimal numeral of `n` (fuel-based, structural). -/
def decDigitsCore : Nat → Nat → List Nat
  | 0, _ => []
  | fuel + 1, n => if n < 10 then [48 + n] else decDigitsCore fuel (n / 10) ++ [48 + n % 10]

/-- ASCII bytes of the decimal numeral of `n`. -/
def decDigits (n : Nat) : List Nat := decDigitsCore (n + 1) n

/-- Modelled from the spec: the foreground emission required by the
specification, ESC `[` `38;2;` r `;` g `;` b `m` with each channel rendered
as its decimal numeral. -/
def specColorFgBytes (c : color) : List Nat :=
  [27, 91] ++ [51, 56, 59, 50, 59] ++
    decDigits c.r ++ [59] ++ decDigits c.g ++ [59] ++ decDigits c.b ++ [109]

/-- Modelled from the spec: the background emission required by the
specification, using the background-select code `48;2;`. -/
def specColorBgBytes (c : color) : List Nat :=
  [27, 91] ++ [52, 56, 59, 50, 59] ++
    decDigits c.r ++ [59] ++ decDigits c.g ++ [59] ++ decDigits c.b ++ [109]

/-- The screen buffer (`class screen<chartype>`), with the member fields
`m_x, m_y, m_width, m_height, m_front, m_back, m_cursorX, m_cursorY,
m_cursorAttribs, m_fillChar`. -/
structure screen where
  x : Nat
  y : Nat
  width : Nat
  height : Nat
  front : List cell
  back : List cell
  cursorX : Nat
  cursorY : Nat
  cursorAttribs : attribs
  fillChar : Glyph
  deriving DecidableEq, Repr

/-- The full 7-argument constructor `screen(X, Y, W, H, C, B, F)`:
both grids start as `W * H` copies of `cell{C, B, F}`; the construction
redraw leaves `back = front` (they are already equal). -/
def mkScreen (X Y W H : Nat) (C : Glyph) (B F : color) : screen :=
  { x := X, y := Y, width := W, height := H
    front := List.replicate (W * H) ⟨C, ⟨B, F, false, false⟩⟩
    back := List.replicate (W * H) ⟨C, ⟨B, F, false, false⟩⟩
    cursorX := 0, cursorY := 0
    cursorAttribs := ⟨B, F, false, false⟩
    fillChar := C }

/-- `setcursorxy(x, y)`: stores both coordinates unmodified. -/
def setcursorxy (s : screen) (cx cy : Nat) : screen :=
  { s with cursorX := cx, cursorY := cy }

/-- `getcursorx()`: the source returns `m_cursorY`. -/
def getcursorx (s : screen) : Nat := s.cursorY

/-- `getcursory()`: returns `m_cursorY`. -/
def getcursory (s : screen) : Nat := s.cursorY

/-- `clear(c)`: overwrite every front cell with `cell{c, m_cursorAttribs}`. -/
def clear (s : screen) (c : Glyph) : screen :=
  { s with front := s.front.map (fun _ => ⟨c, s.cursorAttribs⟩) }

/-- `scroll()`: sets `m_cursorY := m_height - 1`, replaces `m_front` by the
vector built from iterators `begin() + m_width .. end()` (length shrinks by
one row), then `std::fill` overwrites the last `m_width` cells of that new
vector with `cell{m_fillChar, m_cursorAttribs}`. -/
def scroll (s : screen) : screen :=
  let f := s.front.drop s.width
  { s with
      cursorY := s.height - 1
      front := f.take (f.length - s.width) ++
        List.replicate s.width ⟨s.fillChar, s.cursorAttribs⟩ }

/-- `setc(x, y, c)`: asserts `x < m_width` and `y < m_height` (`none` when an
assertion trips), then writes `cell{c, m_cursorAttribs}` at `x + y * m_width`. -/
def setc (s : screen) (cx cy : Nat) (c : Glyph) : Option screen :=
  if cx < s.width ∧ cy < s.height then
    some { s with front := s.front.set (cx + cy * s.width) ⟨c, s.cursorAttribs⟩ }
  else none

/-- `operator[](i)`: asserts `i < m_width * m_height` (note: not `i < m_height`),
then returns the span `[begin + i*width, begin + i*width + width)` over the
front grid, here the corresponding `(drop, take)` slice. -/
def rowSlice (s : screen) (i : Nat) : Option (List cell) :=
  if i < s.width * s.height then
    some ((s.front.drop (i * s.width)).take s.width)
  else none

/-- The wrap check at the end of `putc`: if `m_cursorX == m_width`, move to
column 0 of the next row. -/
def wrap (s : screen) : screen :=
  if s.cursorX = s.width then { s with cursorX := 0, cursorY := s.cursorY + 1 }
  else s

/-- `putc(c)`: scroll first when `m_cursorY == m_height`; a newline resets the
column and advances the row; any other glyph is written through
`(*this)[m_cursorY][m_cursorX++]` (front index `m_cursorY * m_width + m_cursorX`);
finally the wrap check runs. -/
def putc (s0 : screen) (c : Glyph) : screen :=
  let s := if s0.cursorY = s0.height then scroll s0 else s0
  if c = newlineGlyph then
    wrap { s with cursorX := 0, cursorY := s.cursorY + 1 }
  else
    wrap { s with
      front := s.front.set (s.cursorY * s.width + s.cursorX) ⟨c, s.cursorAttribs⟩
      cursorX := s.cursorX + 1 }

/-- `puts(s)`: `putc` applied to each glyph in order. -/
def puts (s : screen) (l : List Glyph) : screen := l.foldl putc s

/-- `redraw()`: for each row, `ANSI_MOVE(0, y)` then each cell left to right,
emitting both colors whenever the cell attributes differ from the running
attributes (initialised to `(*this)[0][0].attr`), then always the glyph;
afterwards `m_back = m_front`. -/
def redraw (s : screen) : screen × List emit :=
  let init : List emit × attribs := ([], (s.front.getD 0 default).attr)
  let out := (List.range s.height).foldl
    (fun p yy =>
      let row := (s.front.drop (yy * s.width)).take s.width
      row.foldl
        (fun q c =>
          if c.attr = q.2 then (q.1 ++ [emit.glyph c.chr], q.2)
          else (q.1 ++ [emit.colorFg c.attr.fg, emit.colorBg c.attr.bg, emit.glyph c.chr], c.attr))
        (p.1 ++ [emit.move 0 yy], p.2))
    init
  ({ s with back := s.front }, out.1)

/-- One row of `flush()`: skip the row when the back and front row slices are
equal; otherwise, per differing cell, `ANSI_MOVE(x, y)`, both colors when
the attributes differ from the back cell, then the glyph. -/
def flushRow (s : screen) (yy : Nat) : List emit :=
  let backspan := (s.back.drop (yy * s.width)).take s.width
  let frontspan := (s.front.drop (yy * s.width)).take s.width
  if backspan = frontspan then []
  else
    (List.range s.width).foldl
      (fun acc xx =>
        let fc := frontspan.getD xx default
        let bc := backspan.getD xx default
        if fc = bc then acc
        else
          acc ++ emit.move xx yy ::
            (if fc.attr = bc.attr then [] else [emit.colorFg fc.attr.fg, emit.colorBg fc.attr.bg]) ++
            [emit.glyph fc.chr])
      []

/-- `flush()`: diff each row against the back grid and emit only differing
cells.  The member state is not touched — in particular `m_back` is never
updated. -/
def flush (s : screen) : screen × List emit :=
  (s, (List.range s.height).foldl (fun acc yy => acc ++ flushRow s yy) [])

/- Concrete screens used as inputs below.  All are reachable: built by the
constructor followed by `setc` calls. -/

/-- Black, the default background. -/
def blackC : color := ⟨0, 0, 0⟩

/-- White, the default foreground. -/
def whiteC : color := ⟨255, 255, 255⟩

/-- The default attributes of a freshly constructed screen. -/
def defAttrs : attribs := ⟨blackC, whiteC, false, false⟩

/-- A 1×1 screen fresh from the constructor, filled with the space glyph. -/
def base11 : screen := mkScreen 0 0 1 1 32 blackC whiteC

/-- `base11` after `setc(0, 0, 'X')`: front holds `X`, back still the space. -/
def xScreen : screen := (setc base11 0 0 88).getD base11

/-- A 2×2 screen fresh from the constructor. -/
def base22 : screen := mkScreen 0 0 2 2 32 blackC whiteC

/-- A 1×3 screen fresh from the constructor. -/
def base13 : screen := mkScreen 0 0 1 3 32 blackC whiteC

/-- `base13` after `setc(0,0,'A')`, `setc(0,1,'B')`, `setc(0,2,'C')`:
one column holding rows `A`, `B`, `C`. -/
def abc13 : screen :=
  (((setc base13 0 0 65).bind fun t => setc t 0 1 66).bind fun t => setc t 0 2 67).getD base13

/-- A 3×2 screen fresh from the constructor, used to exercise the line-wrap
law on a concrete input. -/
def w8screen : screen := mkScreen 0 0 3 2 32 blackC whiteC

/-- Successive in-place writes: overwrite the cells at positions
`i, i+1, ...` with the given cells.  This is the cumulative effect of the
front-grid writes performed by a run of `putc` calls. -/
def setRun : List cell → Nat → List cell → List cell
  | f, _, [] => f
  | f, i, c :: cs => setRun (f.set i c) (i + 1) cs

/-- C1: the claimed size invariant fails at `scroll`: on the reachable 2×2
screen `base22` (whose grids do have `width*height = 4` cells), `scroll()`
leaves the front grid with only 2 cells — the rebuilt vector drops one row
and the fill never restores the size. -/
theorem scroll_breaks_size_invariant :
    Straw.base22.width * Straw.base22.height = 4 ∧
    Straw.base22.front.length = 4 ∧
    (Straw.scroll Straw.base22).front.length = 2 := by decide

/-- C2: `redraw` does reconcile (`back = front` afterwards), but `flush`
never copies the front grid into the back grid: on the reachable 1×1 screen
`xScreen` (front holds `X`, back holds the space), after `flush` the back
grid still holds the space cell, so `back ≠ front`. -/
theorem flush_leaves_back_stale :
    (Straw.redraw Straw.xScreen).fst.back = (Straw.redraw Straw.xScreen).fst.front ∧
    (Straw.flush Straw.xScreen).fst.front = [⟨88, Straw.defAttrs⟩] ∧
    (Straw.flush Straw.xScreen).fst.back = [⟨32, Straw.defAttrs⟩] ∧
    (Straw.flush Straw.xScreen).fst.back ≠ (Straw.flush Straw.xScreen).fst.front := by decide

/-- C3: on the reachable 1×3 screen `abc13` with column `A, B, C`, `scroll()`
produces the 2-cell column `B, fill` with `cursorY = 2`: row `A` is
discarded and `B` shifts up as claimed, but the old last row `C` is
destroyed by the fill and no row `height - 1` exists — the grid has shrunk
to two rows instead of keeping three with a fresh fill row at the bottom. -/
theorem scroll_destroys_last_row :
    Straw.abc13.front = [⟨65, Straw.defAttrs⟩, ⟨66, Straw.defAttrs⟩, ⟨67, Straw.defAttrs⟩] ∧
    (Straw.scroll Straw.abc13).front = [⟨66, Straw.defAttrs⟩, ⟨32, Straw.defAttrs⟩] ∧
    (Straw.scroll Straw.abc13).cursorY = 2 := by decide

/-- C4: two consecutive flushes with no front-grid mutation in between do
NOT leave the second flush silent: on the reachable screen `xScreen`, the
first flush emits the diff but never updates the back grid, so the second
flush re-emits the same cursor move and glyph instead of nothing. -/
theorem second_flush_reemits :
    (Straw.flush (Straw.flush Straw.xScreen).fst).snd = [Straw.emit.move 0 0, Straw.emit.glyph 88] ∧
    (Straw.flush (Straw.flush Straw.xScreen).fst).snd ≠ [] := by decide

/-- C5: after `setcursorxy(3, 5)`, querying the x-coordinate returns 5, not
3: the source's `getcursorx()` returns `m_cursorY`. -/
theorem getcursorx_returns_y :
    Straw.getcursorx (Straw.setcursorxy Straw.base11 3 5) = 5 ∧
    Straw.getcursorx (Straw.setcursorxy Straw.base11 3 5) ≠ 3 := by decide

/-- C6: row indexing with `i ≥ height` does not fail fast: `operator[]`
asserts `i < width * height`, so on the 2×2 screen the out-of-range row
index 3 passes the assertion (`3 < 4`) and a slice is returned (here the
out-of-range span, which does not even contain `width` cells) instead of a
trap. -/
theorem row_index_assertion_too_weak :
    Straw.base22.height = 2 ∧
    (Straw.rowSlice Straw.base22 3).isSome = true ∧
    Straw.rowSlice Straw.base22 3 = some [] := by decide

/-- C7: the foreground emission for color (255, 0, 0) renders each channel
as one raw byte (255, 0, 0 literally), not as decimal numerals, and the
background emission is byte-identical to the foreground one — it uses the
foreground-select code `38`, never `48` — so both differ from the
spec-required sequences. -/
theorem ansi_color_emission_defect :
    Straw.ANSI_COLOR_FG_bytes ⟨255, 0, 0⟩ =
      [27, 91, 51, 56, 59, 50, 59, 255, 59, 0, 59, 0, 109] ∧
    Straw.ANSI_COLOR_BG_bytes ⟨255, 0, 0⟩ = Straw.ANSI_COLOR_FG_bytes ⟨255, 0, 0⟩ ∧
    Straw.ANSI_COLOR_FG_bytes ⟨255, 0, 0⟩ ≠ Straw.specColorFgBytes ⟨255, 0, 0⟩ ∧
    Straw.ANSI_COLOR_BG_bytes ⟨255, 0, 0⟩ ≠ Straw.specColorBgBytes ⟨255, 0, 0⟩ := by decide

/-- C9: `flush` never modifies the screen state: the front grid, the back
grid, the cursor position and the cursor attributes are identical before
and after a flush, for every buffer state. -/
theorem flush_preserves_state (s : Straw.screen) :
    (Straw.flush s).fst.front = s.front ∧
    (Straw.flush s).fst.cursorX = s.cursorX ∧
    (Straw.flush s).fst.cursorY = s.cursorY ∧
    (Straw.flush s).fst.cursorAttribs = s.cursorAttribs :=
  ⟨rfl, rfl, rfl, rfl⟩

/-- C10: `setcursorxy` accepts every pair, stores both arguments unmodified
— no assertion, no clamping — and changes nothing else, so it can place the
cursor outside the documented bounds. -/
theorem setcursorxy_stores_unchecked (s : Straw.screen) (cx cy : Nat) :
    (Straw.setcursorxy s cx cy).cursorX = cx ∧
    (Straw.setcursorxy s cx cy).cursorY = cy ∧
    (Straw.setcursorxy s cx cy).front = s.front ∧
    (Straw.setcursorxy s cx cy).back = s.back ∧
    (Straw.setcursorxy s cx cy).width = s.width ∧
    (Straw.setcursorxy s cx cy).height = s.height ∧
    (Straw.setcursorxy s cx cy).cursorAttribs = s.cursorAttribs :=
  ⟨rfl, rfl, rfl, rfl, rfl, rfl, rfl⟩

/-- A run of writes leaves the grid length unchanged. -/
theorem setRun_length : ∀ (cs f : List cell) (i : Nat),
    (setRun f i cs).length = f.length := by
  intro cs
  induction cs with
  | nil => intro f i; rfl
  | cons c cs ih => intro f i; rw [setRun, ih, List.length_set]

/-- Positions strictly before the run are untouched. -/
theorem setRun_get?_lt : ∀ (cs f : List cell) (i j : Nat), j < i →
    (setRun f i cs)[j]? = f[j]? := by
  intro cs
  induction cs with
  | nil => intro f i j _; rfl
  | cons c cs ih =>
    intro f i j hj
    rw [setRun, ih _ _ _ (Nat.lt_succ_of_lt hj),
      List.getElem?_set_ne (Nat.ne_of_gt hj)]

/-- Within the run (and within the grid), position `i + k` holds the `k`-th
written cell. -/
theorem setRun_get? : ∀ (cs f : List cell) (i k : Nat),
    k < cs.length → i + cs.length ≤ f.length →
    (setRun f i cs)[i + k]? = cs[k]? := by
  intro cs
  induction cs with
  | nil => intro f i k hk _; exact absurd hk (by simp)
  | cons c cs ih =>
    intro f i k hk hle
    match k with
    | 0 =>
      rw [setRun]
      simp only [Nat.add_zero]
      rw [setRun_get?_lt cs _ (i + 1) i (Nat.lt_succ_self i)]
      have hi : i < f.length := by
        have := List.length_cons c cs
        omega
      rw [List.getElem?_set_eq_of_lt _ hi]
      simp
    | k + 1 =>
      rw [setRun]
      have h1 : i + (k + 1) = (i + 1) + k := by omega
      have h2 : k < cs.length := by simp at hk; omega
      have h3 : (i + 1) + cs.length ≤ (f.set i c).length := by
        rw [List.length_set]; simp at hle; omega
      rw [h1, ih (f.set i c) (i + 1) k h2 h3]
      simp

/-- The wrap check does nothing when the cursor column is not the width. -/
theorem wrap_of_ne (t : screen) (h : t.cursorX ≠ t.width) : wrap t = t := by
  simp [wrap, h]

/-- The wrap check moves to column 0 of the next row at the width. -/
theorem wrap_of_eq (t : screen) (h : t.cursorX = t.width) :
    wrap t = { t with cursorX := 0, cursorY := t.cursorY + 1 } := by
  simp [wrap, h]

/-- Unfolding of `putc` on a non-newline glyph when no scroll triggers. -/
theorem putc_write (s : screen) (c : Glyph)
    (hY : s.cursorY ≠ s.height) (hc : c ≠ newlineGlyph) :
    putc s c = wrap { s with
      front := s.front.set (s.cursorY * s.width + s.cursorX) ⟨c, s.cursorAttribs⟩
      cursorX := s.cursorX + 1 } := by
  simp only [putc, if_neg hY, if_neg hc]

/-- Unfolding of `puts` on a cons. -/
theorem puts_cons (s : screen) (c : Glyph) (l : List Glyph) :
    puts s (c :: l) = puts (putc s c) l := rfl

/-- Writing a non-empty run of non-newline glyphs that exactly finishes the
current row: the glyphs land at consecutive front positions starting at the
cursor, and the final wrap leaves the cursor at column 0 of the next row.
No scroll triggers along the way since the starting row is in range. -/
theorem puts_aux : ∀ (l : List Glyph) (s : screen),
    s.cursorY < s.height →
    s.cursorX + l.length = s.width →
    l ≠ [] →
    (∀ c ∈ l, c ≠ newlineGlyph) →
    puts s l = { s with
      front := setRun s.front (s.cursorY * s.width + s.cursorX)
        (l.map fun c => cell.mk c s.cursorAttribs)
      cursorX := 0
      cursorY := s.cursorY + 1 } := by
  intro l
  induction l with
  | nil => intro s _ _ hne _; exact absurd rfl hne
  | cons c cs ih =>
    intro s hy hlen _ hnl
    have hY : s.cursorY ≠ s.height := Nat.ne_of_lt hy
    have hc : c ≠ newlineGlyph := hnl c (List.mem_cons_self c cs)
    rw [puts_cons, putc_write s c hY hc]
    cases cs with
    | nil =>
      have hXeq : s.cursorX + 1 = s.width := by simp at hlen; omega
      rw [wrap_of_eq _ hXeq]
      rfl
    | cons c2 cs2 =>
      have hXne : s.cursorX + 1 ≠ s.width := by simp at hlen; omega
      rw [wrap_of_ne _ hXne]
      have hres := ih { s with
          front := s.front.set (s.cursorY * s.width + s.cursorX) ⟨c, s.cursorAttribs⟩
          cursorX := s.cursorX + 1 }
        (by simpa using hy)
        (by simp at hlen ⊢; omega)
        (by simp)
        (by intro d hd; exact hnl d (List.mem_cons_of_mem c hd))
      rw [puts_cons] at hres ⊢
      rw [hres]
      simp only [List.map_cons, setRun]
      rfl

/-- C8: for every valid screen (grids of `width * height` cells,
`width ≥ 1`) with the cursor at column 0 of an in-range row, writing a
sequence of exactly `width` non-newline glyphs with `puts` leaves the
cursor at column 0 of the next row, and every glyph of the sequence is
written into that row left to right (position `k` of the row holds the
`k`-th glyph with the cursor attributes). -/
theorem puts_line_wrap (s : Straw.screen) (l : List Straw.Glyph) (k : Nat)
    (hfl : s.front.length = s.width * s.height)
    (hx : s.cursorX = 0)
    (hy : s.cursorY < s.height)
    (hl : l.length = s.width)
    (hw : 1 ≤ s.width)
    (hnl : ∀ c ∈ l, c ≠ Straw.newlineGlyph)
    (hk : k < s.width) :
    (Straw.puts s l).cursorX = 0 ∧
    (Straw.puts s l).cursorY = s.cursorY + 1 ∧
    (Straw.puts s l).front[s.cursorY * s.width + k]? =
      some (Straw.cell.mk (l.getD k 0) s.cursorAttribs) := by
  have hne : l ≠ [] := by
    intro h
    rw [h] at hl
    simp at hl
    omega
  have h := puts_aux l s hy (by omega) hne hnl
  refine ⟨by rw [h], by rw [h], ?_⟩
  rw [h]
  have hxz : s.cursorY * s.width + s.cursorX = s.cursorY * s.width := by omega
  simp only [hxz]
  have hklen : k < (l.map fun c => cell.mk c s.cursorAttribs).length := by
    simp [hl, hk]
  have hbound : s.cursorY * s.width + (l.map fun c => cell.mk c s.cursorAttribs).length
      ≤ s.front.length := by
    simp only [List.length_map, hl, hfl]
    have : s.cursorY + 1 ≤ s.height := hy
    calc s.cursorY * s.width + s.width = (s.cursorY + 1) * s.width := by ring
    _ ≤ s.height * s.width := Nat.mul_le_mul_right _ this
    _ = s.width * s.height := Nat.mul_comm _ _
  rw [setRun_get? _ _ _ _ hklen hbound]
  rw [List.getElem?_map]
  have hkl : k < l.length := by omega
  rw [List.getElem?_eq_getElem hkl]
  simp [List.getD_eq_getElem?_getD, List.getElem?_eq_getElem hkl]

/-- Witness for C8: on a fresh 3×2 screen, writing the three glyphs
`A B C` from (0, 0) leaves the cursor at (0, 1) and puts `B` at row 0,
column 1. -/
theorem puts_line_wrap_witness :
    (Straw.puts Straw.w8screen [65, 66, 67]).cursorX = 0 ∧
    (Straw.puts Straw.w8screen [65, 66, 67]).cursorY = Straw.w8screen.cursorY + 1 ∧
    (Straw.puts Straw.w8screen [65, 66, 67]).front[Straw.w8screen.cursorY * Straw.w8screen.width + 1]? =
      some (Straw.cell.mk ([65, 66, 67].getD 1 0) Straw.w8screen.cursorAttribs) :=
  puts_line_wrap Straw.w8screen [65, 66, 67] 1 (by decide) (by decide) (by decide)
    (by decide) (by decide) (by decide) (by decide)

end Straw
